import Mathlib

/-!
Verification of the Synthea de-identification pipeline (`deid_pipeline.py` and
its helper `synthea_helper_codes/build_eval_dataset.py`).

The development shallowly embeds the pipeline's data model and operations:
  * `Doc` models the JSON-like documents the pipeline processes (Python dicts,
    lists, strings, ints, bools, None; non-integer numbers are not needed by
    any property studied here and are omitted).
  * Python string helpers (`strip`, `lower`, substring tests, `re.sub` on
    escaped literals) are embedded as executable functions on `String`.
  * The fixed regex pattern library is embedded with a small backtracking
    regex engine whose preference order (leftmost match, greedy quantifiers,
    ordered alternation) mirrors Python's `re` on these patterns.
  * `walk_json`, `merge_entities`, `standardize_label`, `deidentify_line`,
    `set_value_at_path` and `deidentify_json` are translated function by
    function from the source.

The external NER model is a black box in the source (`ner` argument); it is a
parameter of type `Ner := String → List NerPred` here.
-/

/-! ### Python string primitives -/

/-- Python whitespace characters recognised by `str.strip()` (ASCII range;
all strings handled by the pipeline's properties here are ASCII). -/
def pyWs (c : Char) : Bool :=
  c = ' ' || c = '\t' || c = '\n' || c = '\r' || c = '\x0b' || c = '\x0c'

/-- Python `str.strip()`. -/
def pyStrip (s : String) : String :=
  String.mk ((s.data.dropWhile pyWs).reverse.dropWhile pyWs |>.reverse)

/-- Python `str.lower()` (ASCII). -/
def pyLower (s : String) : String := String.mk (s.data.map Char.toLower)

/-- Python `str.upper()` (ASCII). -/
def pyUpper (s : String) : String := String.mk (s.data.map Char.toUpper)

/-- Substring occurrence test on character lists: Python's `needle in hay`. -/
def subIn (needle : List Char) : List Char → Bool
  | [] => needle.isEmpty
  | c :: cs => needle.isPrefixOf (c :: cs) || subIn needle cs

/-- Python's `needle in hay` on strings. -/
def containsSub (needle hay : String) : Bool := subIn needle.data hay.data

/-- Python `s.startswith(pre)`. -/
def pyStartsWith (pre s : String) : Bool := pre.data.isPrefixOf s.data

/-- Python `str.isdigit()` (ASCII digits). -/
def pyIsDigit (s : String) : Bool := !s.data.isEmpty && s.data.all Char.isDigit

/-- Replace every occurrence of the non-empty literal `n` in `s`, scanning left
to right without overlap, comparing characters with `eq`.  This is the
semantics of Python `str.replace` and of `re.sub` on a `re.escape`d literal
(the empty-needle case inserts `r` at every position, as `re.sub` does). -/
def replaceAllAux (eq : Char → Char → Bool) (n0 : Char) (nrest r : List Char) :
    Nat → List Char → List Char
  | _, [] => []
  | 0, l => l
  | fuel + 1, c :: cs =>
    if (List.zip (n0 :: nrest) (c :: cs)).all (fun p => eq p.1 p.2)
        && (n0 :: nrest).length ≤ (c :: cs).length then
      r ++ replaceAllAux eq n0 nrest r fuel ((c :: cs).drop (n0 :: nrest).length)
    else c :: replaceAllAux eq n0 nrest r fuel cs

/-- Case-sensitive literal replace-all: `re.sub(re.escape(t), r, s)`. -/
def replaceAll (t r s : String) : String :=
  match t.data with
  | [] => String.mk (r.data ++ s.data.foldr (fun c acc => c :: r.data ++ acc) [])
  | n0 :: nrest =>
    String.mk (replaceAllAux (fun a b => a = b) n0 nrest r.data s.data.length s.data)

/-- Case-insensitive literal replace-all:
`re.compile(re.escape(t), re.IGNORECASE).sub(r, s)`. -/
def replaceAllCI (t r s : String) : String :=
  match t.data with
  | [] => String.mk (r.data ++ s.data.foldr (fun c acc => c :: r.data ++ acc) [])
  | n0 :: nrest =>
    String.mk (replaceAllAux (fun a b => a.toLower = b.toLower) n0 nrest r.data
      s.data.length s.data)

/-- Split off the part of `l` before the first occurrence of `sep`, together
with the part after it. -/
def splitFirst (sep : Char) : List Char → Option (List Char × List Char)
  | [] => none
  | c :: cs =>
    if c = sep then some ([], cs)
    else (splitFirst sep cs).map (fun p => (c :: p.1, p.2))

/-- Python `s.split(sep, 1)` restricted to `sep = "."`: `some (before, after)`
when a dot occurs, `none` otherwise. -/
def splitOnceDot (s : String) : Option (String × String) :=
  (splitFirst '.' s.data).map (fun p => (String.mk p.1, String.mk p.2))

/-- Split a character list at every occurrence of `sep` (Python
`s.split(sep)`; adjacent separators yield empty parts). -/
def splitChar (sep : Char) : List Char → List (List Char)
  | [] => [[]]
  | c :: cs =>
    let r := splitChar sep cs
    if c = sep then [] :: r
    else
      match r with
      | h :: t => (c :: h) :: t
      | [] => [[c]]

/-- Python `s.split(".")`. -/
def pySplitDot (s : String) : List String := (splitChar '.' s.data).map String.mk

/-- Digits of a decimal numeral to a natural number (`int(...)` on a string of
digits). -/
def digitsToNat (l : List Char) : Nat :=
  l.foldl (fun a c => a * 10 + (c.toNat - 48)) 0

/-! ### The document model

Python objects flowing through the pipeline: JSON-style dicts, lists and
leaves.  `Fields` and `DList` are spelled-out list types so that all
recursions over documents are structural. -/

mutual
inductive Doc where
  | obj : Fields → Doc
  | arr : DList → Doc
  | str : String → Doc
  | num : Int → Doc
  | bool : Bool → Doc
  | null : Doc
  deriving DecidableEq

inductive Fields where
  | nil : Fields
  | cons : String → Doc → Fields → Fields
  deriving DecidableEq

inductive DList where
  | nil : DList
  | cons : Doc → DList → DList
  deriving DecidableEq
end

/-- First binding of key `k` (Python dict lookup; dicts have unique keys). -/
def Fields.lookup (k : String) : Fields → Option Doc
  | .nil => none
  | .cons k' v rest => if k' = k then some v else Fields.lookup k rest

/-- Length of an embedded Python list. -/
def DList.length : DList → Nat
  | .nil => 0
  | .cons _ rest => 1 + DList.length rest

/-- The elements of an embedded Python list, as a Lean list. -/
def DList.toList : DList → List Doc
  | .nil => []
  | .cons x rest => x :: DList.toList rest

/-- Python truthiness of a document (`if not resource: ...`). -/
def pyFalsy : Doc → Bool
  | .obj .nil => true
  | .arr .nil => true
  | .str s => s = ""
  | .num n => n = 0
  | .bool b => !b
  | .null => true
  | _ => false

/-! ### A small backtracking regex engine

The pattern library of the pipeline uses only character classes, counted
greedy repetition of a class, ordered alternation, optional groups, and word
boundaries.  `reMatch` returns the candidate end positions of a match
starting at `i` in Python's backtracking preference order (greedy
quantifiers, leftmost alternative first), so its head is the end of the match
Python's `re` finds. -/

inductive RE where
  | eps : RE
  | cls : (Char → Bool) → RE
  | seq : RE → RE → RE
  | alt : RE → RE → RE
  | opt : RE → RE
  | rep : (Char → Bool) → Nat → Option Nat → RE
  | wb : RE

/-- Word character for `\b` (`[A-Za-z0-9_]`; inputs here are ASCII). -/
def isWordChar (c : Char) : Bool := c.isAlpha || c.isDigit || c = '_'

/-- Word boundary test at offset `i` of `s`. -/
def atBoundary (s : List Char) (i : Nat) : Bool :=
  let wl := if i = 0 then false else
    match s.get? (i - 1) with
    | some c => isWordChar c
    | none => false
  let wr :=
    match s.get? i with
    | some c => isWordChar c
    | none => false
  wl != wr

/-- Length of the maximal run of characters satisfying `p` starting at `i`. -/
def runLenFrom (p : Char → Bool) (s : List Char) (i : Nat) : Nat :=
  ((s.drop i).takeWhile p).length

/-- Candidate match ends from position `i`, in backtracking preference
order. -/
def reMatch (s : List Char) : RE → Nat → List Nat
  | .eps, i => [i]
  | .cls p, i =>
    match s.get? i with
    | some c => if p c then [i + 1] else []
    | none => []
  | .seq a b, i => (reMatch s a i).flatMap (fun j => reMatch s b j)
  | .alt a b, i => reMatch s a i ++ reMatch s b i
  | .opt a, i => reMatch s a i ++ [i]
  | .rep p lo hi, i =>
    let m := match hi with
      | some h => min (runLenFrom p s i) h
      | none => runLenFrom p s i
    if m < lo then [] else (List.range (m - lo + 1)).map (fun d => i + m - d)
  | .wb, i => if atBoundary s i then [i] else []

/-- Scan for non-overlapping leftmost matches (the loop of `re.findall`);
returns `(start, end)` offsets. -/
def findallAux (pat : RE) (s : List Char) : Nat → Nat → List (Nat × Nat)
  | 0, _ => []
  | fuel + 1, i =>
    if i > s.length then []
    else
      match (reMatch s pat i).head? with
      | some e =>
        if e > i then (i, e) :: findallAux pat s fuel e
        else (i, e) :: findallAux pat s fuel (i + 1)
      | none => findallAux pat s fuel (i + 1)

/-- Python `pattern.findall(s)` for the patterns of the library: every pattern
either has no capture group or one outer group spanning the whole match, so
`findall` yields the full matched texts (the source's
`match if isinstance(match, str) else match[0]`). -/
def findall (pat : RE) (s : String) : List String :=
  (findallAux pat s.data (s.data.length + 2) 0).map
    (fun p => String.mk ((s.data.drop p.1).take (p.2 - p.1)))

/-- Python `re.fullmatch(pat, s)` viewed as a Bool. -/
def fullmatchRE (pat : RE) (s : String) : Bool :=
  (reMatch s.data pat 0).contains s.data.length

/-- Sequence a list of regex pieces. -/
def reSeq (l : List RE) : RE := l.foldr RE.seq RE.eps

def chUpper (c : Char) : Bool := 'A' ≤ c && c ≤ 'Z'
def chLower (c : Char) : Bool := 'a' ≤ c && c ≤ 'z'
def chDigit (c : Char) : Bool := c.isDigit
def chHex (c : Char) : Bool :=
  c.isDigit || ('a' ≤ c && c ≤ 'f') || ('A' ≤ c && c ≤ 'F')
def chLit (x : Char) : RE := RE.cls (fun c => c = x)

/-! ### The regex safeguard pattern library (`REGEX_PATTERNS`) -/

/-- `\b[A-Z][a-z]+[0-9]{2,}(?:\s[A-Z][a-z]+[0-9]{2,})?\b` -/
def RE_NAME : RE := reSeq [RE.wb, RE.cls chUpper, RE.rep chLower 1 none,
  RE.rep chDigit 2 none,
  RE.opt (reSeq [RE.cls pyWs, RE.cls chUpper, RE.rep chLower 1 none,
    RE.rep chDigit 2 none]),
  RE.wb]

/-- `\b[A-Z][a-z]+,\s[A-Z]{2}\b` -/
def RE_CITY_ST : RE := reSeq [RE.wb, RE.cls chUpper, RE.rep chLower 1 none,
  chLit ',', RE.cls pyWs, RE.rep chUpper 2 (some 2), RE.wb]

/-- The phone-number pattern: four alternatives with an optional extension.
The outer capture group spans the whole pattern, so `findall`'s `match[0]`
is the full matched text. -/
def RE_PHONE : RE :=
  RE.seq
    (RE.alt
      (reSeq [chLit '(', RE.rep chDigit 3 (some 3), chLit ')', RE.cls pyWs,
        RE.rep chDigit 3 (some 3), chLit '-', RE.rep chDigit 4 (some 4)])
      (RE.alt
        (reSeq [RE.wb, RE.rep chDigit 1 (some 3), chLit '-',
          RE.rep chDigit 3 (some 3), chLit '-', RE.rep chDigit 3 (some 3),
          chLit '-', RE.rep chDigit 4 (some 4)])
        (RE.alt
          (reSeq [RE.wb, RE.rep chDigit 3 (some 3), chLit '.',
            RE.rep chDigit 3 (some 3), chLit '.', RE.rep chDigit 4 (some 4)])
          (reSeq [RE.wb, RE.rep chDigit 3 (some 3), chLit '-',
            RE.rep chDigit 3 (some 3), chLit '-', RE.rep chDigit 4 (some 4)]))))
    (RE.opt (reSeq [RE.opt (RE.cls pyWs), chLit 'x',
      RE.rep chDigit 3 (some 5)]))

/-- `\b\d{3}-?\d{2}-?\d{4}\b` -/
def RE_SSN : RE := reSeq [RE.wb, RE.rep chDigit 3 (some 3),
  RE.opt (chLit '-'), RE.rep chDigit 2 (some 2), RE.opt (chLit '-'),
  RE.rep chDigit 4 (some 4), RE.wb]

/-- `\b[A-Z]\d{8}\b` -/
def RE_ID_ALPHA : RE := reSeq [RE.wb, RE.cls chUpper,
  RE.rep chDigit 8 (some 8), RE.wb]

/-- `\bX\d{8}X\b` -/
def RE_ID_X : RE := reSeq [RE.wb, chLit 'X', RE.rep chDigit 8 (some 8),
  chLit 'X', RE.wb]

/-- `\b\d{5}\b` -/
def RE_ZIP : RE := reSeq [RE.wb, RE.rep chDigit 5 (some 5), RE.wb]

/-- The UUID pattern, `re.IGNORECASE` folded into the hex class. -/
def RE_UUID : RE := reSeq [RE.wb, RE.rep chHex 8 (some 8), chLit '-',
  RE.rep chHex 4 (some 4), chLit '-', RE.rep chHex 4 (some 4), chLit '-',
  RE.rep chHex 4 (some 4), chLit '-', RE.rep chHex 12 (some 12), RE.wb]

/-- One entry of `REGEX_PATTERNS`. -/
structure RegexEntry where
  label : String
  pat : RE
  score : ℚ

/-- The fixed, ordered pattern library of the Regex Safeguard. -/
def REGEX_PATTERNS : List RegexEntry :=
  [⟨"NAME", RE_NAME, 1⟩,
   ⟨"LOCATION", RE_CITY_ST, 1⟩,
   ⟨"CONTACT", RE_PHONE, 1⟩,
   ⟨"ID", RE_SSN, 1⟩,
   ⟨"ID", RE_ID_ALPHA, 1⟩,
   ⟨"ID", RE_ID_X, 1⟩,
   ⟨"LOCATION", RE_ZIP, 1⟩,
   ⟨"ID", RE_UUID, 1⟩]

/-- The three contextual-fix patterns of step 4 of `deidentify_line`. -/
def RE_2UPPER : RE := RE.rep chUpper 2 (some 2)
def RE_5DIGIT : RE := RE.rep chDigit 5 (some 5)
def RE_CAPDIGITS : RE := reSeq [RE.cls chUpper, RE.rep chLower 1 none,
  RE.rep chDigit 2 none]

/-! ### Labels, helpers and the model-prediction type -/

/-- `LABEL_PRIORITY` as a total map; keys not in the dict map to the
`.get(..., 0)` default used by the source (direct indexing in the source only
ever happens at the seven listed labels). -/
def LABEL_PRIORITY : String → Nat
  | "NAME" => 6
  | "CONTACT" => 5
  | "LOCATION" => 4
  | "DATE" => 3
  | "WEB" => 2
  | "ID" => 1
  | "OTHER" => 0
  | _ => 0

/-- `LABEL_PRIORITY.get(chosen_label, 0)` with `chosen_label` possibly
`None`. -/
def priorityGet : Option String → Nat
  | none => 0
  | some l => LABEL_PRIORITY l

/-- `standardize_label`.  The source iterates a Python set literal whose
order is unspecified; the fixed order used here coincides with the source
whenever at most one of the six keys occurs in the uppercased label, which
holds for every label this development evaluates it on. -/
def standardize_label (label : String) : String :=
  let l := pyUpper label
  if containsSub "NAME" l then "NAME"
  else if containsSub "LOCATION" l then "LOCATION"
  else if containsSub "DATE" l then "DATE"
  else if containsSub "CONTACT" l then "CONTACT"
  else if containsSub "ID" l then "ID"
  else if containsSub "WEB" l then "WEB"
  else "OTHER"

/-- A span predicted by the external NER model (one element of the list the
`ner` pipeline returns). -/
structure NerPred where
  word : String
  entity_group : String
  start : Nat
  end_ : Nat
  score : ℚ
  deriving DecidableEq

/-- The external model service, a black box in the source. -/
def Ner : Type := String → List NerPred

/-- A model that returns no predictions (used to evaluate the pipeline on
concrete inputs where the model layer contributes nothing). -/
def nerNone : Ner := fun _ => []

/-- Loop body of `merge_entities`: `prev` is `merged[-1]`, `acc` holds the
earlier merged entities in reverse. -/
def mergeAux (prev : NerPred) (acc : List NerPred) : List NerPred → List NerPred
  | [] => (prev :: acc).reverse
  | e :: es =>
    if e.entity_group = prev.entity_group && e.start ≤ prev.end_ + 1 then
      let w :=
        if pyStartsWith "##" e.word ||
            (pyIsDigit (replaceAll " " "" prev.word)
              && pyIsDigit (replaceAll " " "" e.word)) then
          prev.word ++ replaceAll "##" "" e.word
        else pyStrip (prev.word ++ " " ++ replaceAll "##" "" e.word)
      mergeAux
        { prev with
          word := w
          end_ := e.end_
          score := max prev.score e.score } acc es
    else
      mergeAux ⟨replaceAll "##" "" e.word, e.entity_group, e.start, e.end_,
        e.score⟩ (prev :: acc) es

/-- `merge_entities`: collapse contiguous same-label spans. -/
def merge_entities : List NerPred → List NerPred
  | [] => []
  | p :: rest => mergeAux p [] rest

/-- `CONF_THRESHOLD = 0.8`. -/
def CONF_THRESHOLD : ℚ := mkRat 8 10

/-- Python `round(x, 3)` (round half to even at the third decimal; every
confidence this development computes with is an exact multiple of `1/1000`,
where this agrees with CPython's float rounding).  Computed on the
numerator/denominator to stay kernel-reducible: `f` is `⌊q * 1000⌋` and
`twice` compares the fractional part against `1/2`. -/
def round3 (q : ℚ) : ℚ :=
  let num : ℤ := 1000 * q.num
  let den : ℤ := (q.den : ℤ)
  let f : ℤ := Int.fdiv num den
  let twice : ℤ := 2 * (num - f * den)
  let k : ℤ :=
    if twice < den then f
    else if den < twice then f + 1
    else if f % 2 = 0 then f else f + 1
  mkRat k 1000

/-! ### `deidentify_line`

The mutable locals `redacted, redacted_flag, chosen_label, redaction_source,
confidence_score` of the source become a `LineState`; the four sequential
blocks of the function become `modelStep`-folds, `keypathStage`,
`regexStage` and `contextualFixes`. -/

structure LineState where
  redacted : String
  redacted_flag : Bool
  chosen_label : Option String
  redaction_source : Option String
  confidence_score : ℚ
  deriving DecidableEq

/-- Step 1, one model prediction: substitute qualifying spans and record the
label, max confidence and source. -/
def modelStep (st : LineState) (e : NerPred) : LineState :=
  let label := standardize_label e.entity_group
  if CONF_THRESHOLD ≤ e.score then
    { redacted := replaceAllCI e.word ("[" ++ label ++ "]") st.redacted,
      redacted_flag := true,
      chosen_label := some label,
      redaction_source := some "model",
      confidence_score := max st.confidence_score e.score }
  else st

/-- Step 2's keypath hint: the six ordered `re.search` tests on the
lowercased keypath (each pattern is an alternation of literal fragments). -/
def keypathHint (kp : String) : Option String :=
  if ["name", "maiden", "given", "family", "prefix", "suffix"].any
      (fun w => containsSub w kp) then some "NAME"
  else if ["address", "city", "state", "postal", "geo"].any
      (fun w => containsSub w kp) then some "LOCATION"
  else if ["birth", "date"].any (fun w => containsSub w kp) then some "DATE"
  else if ["phone", "fax", "email", "telecom", "contact"].any
      (fun w => containsSub w kp) then some "CONTACT"
  else if ["id", "identifier", "license", "account", "passport"].any
      (fun w => containsSub w kp) then some "ID"
  else if ["url", "uri", "web", "internet", "ip", "image", "photo"].any
      (fun w => containsSub w kp) then some "WEB"
  else none

/-- Step 2: override with the keypath hint when it has strictly higher
priority (or nothing was chosen yet). -/
def keypathStage (keypath : String) (st : LineState) : LineState :=
  match keypathHint (pyLower keypath) with
  | some hint =>
    if st.chosen_label.isNone
        || priorityGet st.chosen_label < LABEL_PRIORITY hint then
      { redacted := "[" ++ hint ++ "]",
        redacted_flag := true,
        chosen_label := some hint,
        redaction_source := some "keypath",
        confidence_score := st.confidence_score }
    else st
  | none => st

/-- Step 3, one pattern of the library: `findall` on the original value; the
priority test does not depend on the individual match, so the inner loop
applies the first match and `break`s, or applies none. -/
def regexPatternStep (value : String) (st : LineState) (entry : RegexEntry) :
    LineState :=
  match findall entry.pat value with
  | [] => st
  | m :: _ =>
    if st.chosen_label.isNone
        || priorityGet st.chosen_label ≤ LABEL_PRIORITY entry.label then
      { redacted := replaceAll m ("[" ++ entry.label ++ "]") st.redacted,
        redacted_flag := true,
        chosen_label := some entry.label,
        redaction_source := some "regex",
        confidence_score := entry.score }
    else st

/-- Step 3: the outer `for regex_entry in REGEX_PATTERNS` loop. -/
def regexStage (value : String) (st : LineState) : LineState :=
  REGEX_PATTERNS.foldl (regexPatternStep value) st

/-- The state after steps 1 and 2 of `deidentify_line`. -/
def afterStep2 (keypath value : String) (ner : Ner) : LineState :=
  keypathStage keypath
    ((merge_entities (ner value)).foldl modelStep ⟨value, false, none, none, 0⟩)

/-- The guard of step 3: `not redacted_flag or "[" not in redacted`. -/
def regexGuard (st : LineState) : Bool :=
  !st.redacted_flag || !containsSub "[" st.redacted

/-- The state after step 3 of `deidentify_line`. -/
def afterStep3 (keypath value : String) (ner : Ner) : LineState :=
  let st := afterStep2 keypath value ner
  if regexGuard st then regexStage value st else st

/-- Step 4, the contextual fixes: three `re.fullmatch` tests against the
stripped original value, overriding `redacted` and `chosen_label` only. -/
def contextualFixes (value : String) (st : LineState) : String × Option String :=
  let v := pyStrip value
  if fullmatchRE RE_2UPPER v then ("[LOCATION]", some "LOCATION")
  else if fullmatchRE RE_5DIGIT v then ("[LOCATION]", some "LOCATION")
  else if fullmatchRE RE_CAPDIGITS v then ("[NAME]", some "NAME")
  else (st.redacted, st.chosen_label)

/-- One row of the summary list `deidentify_line` returns. -/
structure LineSummary where
  label : String
  original : String
  confidence : ℚ
  source : String
  deriving DecidableEq

/-- `deidentify_line`: the full hybrid decision for one leaf.  (The
`isinstance(value, str)` escape does not arise here since values are
strings by type.) -/
def deidentify_line (keypath value : String) (ner : Ner) :
    String × List LineSummary :=
  if pyStrip value = "" then (value, [])
  else
    let st := afterStep3 keypath value ner
    let fixed := contextualFixes value st
    match fixed.2 with
    | some lbl =>
      (fixed.1,
        [⟨lbl, value,
          round3 (if st.confidence_score = 0 then 1 else st.confidence_score),
          st.redaction_source.getD "model"⟩])
    | none => (fixed.1, [])

/-! ### The keypath flattener (`walk_json` of `build_eval_dataset.py`) -/

/-- `get_fhir_fragment`: final `/`-delimited component of
`url.rstrip("/")`. -/
def get_fhir_fragment (url : String) : String :=
  let r := (url.data.reverse.dropWhile (fun c => c = '/')).reverse
  String.mk ((r.reverse.takeWhile (fun c => c != '/')).reverse)

/-- The `url` special case of the flattener: for a string field value
beginning with `"http"`, the path fragment to use instead of the key. -/
def urlFrag : Doc → Option String
  | .str s => if pyStartsWith "http" s then some (get_fhir_fragment s) else none
  | _ => none

/-- Python `str(obj)` for the primitive leaves the walker emits. -/
def pyStr : Doc → String
  | .str s => s
  | .num n => toString n
  | .bool b => if b then "True" else "False"
  | _ => ""

mutual
/-- `walk_json`: flatten a nested document into ordered
`(dotted keypath, stringified value)` pairs.  List elements contribute no
path segment; `url` keys with `http...` string values contribute the URL's
final fragment; a primitive leaf (string, int, bool — Python's
`isinstance(obj, (str, int, float))`, under which `bool` is an `int`
subclass) is emitted when its stringification is non-blank. -/
def walkDoc : Doc → List String → List (String × String)
  | .obj fs, path => walkFields fs path
  | .arr l, path => walkDList l path
  | .str s, path =>
    if pyStrip s ≠ "" then [(String.intercalate "." path, s)] else []
  | .num n, path => [(String.intercalate "." path, toString n)]
  | .bool b, path =>
    [(String.intercalate "." path, if b then "True" else "False")]
  | .null, _ => []

/-- Dict part of `walk_json` (`for k, v in obj.items()`). -/
def walkFields : Fields → List String → List (String × String)
  | .nil, _ => []
  | .cons k v rest, path =>
    (match urlFrag v with
     | some frag => if k = "url" then walkDoc v (path ++ [frag])
                    else walkDoc v (path ++ [k])
     | none => walkDoc v (path ++ [k])) ++ walkFields rest path

/-- List part of `walk_json` (elements keep the enclosing path). -/
def walkDList : DList → List String → List (String × String)
  | .nil, _ => []
  | .cons x rest, path => walkDoc x path ++ walkDList rest path
end

/-- Toplevel name matching the source. -/
def walk_json (obj : Doc) (context_path : List String) :
    List (String × String) :=
  walkDoc obj context_path

/-! ### `copy.deepcopy` -/

mutual
/-- Structural deep copy of a document (`copy.deepcopy(data)`): the copy is
built bottom-up from fresh nodes, sharing nothing with the input object. -/
def deepcopyDoc : Doc → Doc
  | .obj fs => .obj (deepcopyFields fs)
  | .arr l => .arr (deepcopyDList l)
  | .str s => .str s
  | .num n => .num n
  | .bool b => .bool b
  | .null => .null

def deepcopyFields : Fields → Fields
  | .nil => .nil
  | .cons k v rest => .cons k (deepcopyDoc v) (deepcopyFields rest)

def deepcopyDList : DList → DList
  | .nil => .nil
  | .cons x rest => .cons (deepcopyDoc x) (deepcopyDList rest)
end

/-! ### Shape similarity

`sameShape a b` holds when `a` and `b` have the same node kind at every
position, the same key sequence at every mapping and the same length at
every array — the relation the structural-preservation property speaks
about (string leaf contents are allowed to differ). -/

mutual
def sameShapeDoc : Doc → Doc → Bool
  | .obj fs, .obj gs => sameShapeFields fs gs
  | .arr xs, .arr ys => sameShapeDList xs ys
  | .str _, .str _ => true
  | .num a, .num b => a = b
  | .bool a, .bool b => a = b
  | .null, .null => true
  | _, _ => false

def sameShapeFields : Fields → Fields → Bool
  | .nil, .nil => true
  | .cons k v rest, .cons k2 v2 rest2 =>
    k = k2 && sameShapeDoc v v2 && sameShapeFields rest rest2
  | _, _ => false

def sameShapeDList : DList → DList → Bool
  | .nil, .nil => true
  | .cons x rest, .cons y rest2 => sameShapeDoc x y && sameShapeDList rest rest2
  | _, _ => false
end

/-! ### The path rewriter (`set_value_at_path`) -/

/-- One parsed path segment: `(key, optional explicit index)`. -/
abbrev Seg := String × Option Nat

/-- `parse_segment`: the anchored regex `^([^\[\]]+)(?:\[(\d+)\])?$`.
A segment that fails to match is returned whole with no index (the same
result the source's `if not m` branch produces). -/
def parse_segment (seg : String) : Seg :=
  match splitFirst '[' seg.data with
  | none => (seg, none)
  | some (k, rest) =>
    if k.isEmpty || k.contains ']' then (seg, none)
    else
      match rest.reverse with
      | ']' :: innerRev =>
        let inner := innerRev.reverse
        if !inner.isEmpty && inner.all Char.isDigit then
          (String.mk k, some (digitsToNat inner))
        else (seg, none)
      | _ => (seg, none)

/-- Is this document a Python `str`? (`isinstance(x, str)`). -/
def isStr : Doc → Bool
  | .str _ => true
  | _ => false

/-- `all(isinstance(x, str) for x in next_obj)`. -/
def dlistAllStr : DList → Bool
  | .nil => true
  | .cons x rest => isStr x && dlistAllStr rest

/-- `for i in range(len(next_obj)): next_obj[i] = new_value`. -/
def dlistOverwriteAll (v : String) : DList → DList
  | .nil => .nil
  | .cons _ rest => .cons (.str v) (dlistOverwriteAll v rest)

/-- `next_obj[idx] = new_value` (in range by the caller's check). -/
def dlistSetElem : DList → Nat → Doc → DList
  | .nil, _, _ => .nil
  | .cons _ rest, 0, d => .cons d rest
  | .cons x rest, n + 1, d => .cons x (dlistSetElem rest n d)

mutual
/-- The recursive `_set` of `set_value_at_path`, functionally: the returned
document is the in-place-mutated `current`.  At a list, an explicit index
recurses into that element with the *same* segments, no index fans out over
every element; at a dict, a present key advances one segment, a missing key
leaves the branch unchanged. -/
def setDoc : Doc → List Seg → String → Doc
  | d, [], _ => d
  | .arr items, (k, some i) :: rest, v =>
    .arr (setDListAt items i ((k, some i) :: rest) v)
  | .arr items, (k, none) :: rest, v =>
    .arr (setDListAll items ((k, none) :: rest) v)
  | .obj fs, (k, idx) :: rest, v => .obj (setFields fs k idx rest v)
  | d, _ :: _, _ => d

/-- `if 0 <= idx < len(current): _set(current[idx], segs)`. -/
def setDListAt : DList → Nat → List Seg → String → DList
  | .nil, _, _, _ => .nil
  | .cons x xs, 0, segs, v => .cons (setDoc x segs v) xs
  | .cons x xs, n + 1, segs, v => .cons x (setDListAt xs n segs v)

/-- `for item in current: _set(item, segs)`. -/
def setDListAll : DList → List Seg → String → DList
  | .nil, _, _ => .nil
  | .cons x xs, segs, v => .cons (setDoc x segs v) (setDListAll xs segs v)

/-- `if isinstance(current, dict) and key in current` — walk to the first
binding of `key` (Python dicts have unique keys) and act on its value
`next_obj`.  The nested match embeds the last-segment replacement rules and
the `segs[1:]` descent through an optional explicit index. -/
def setFields : Fields → String → Option Nat → List Seg → String → Fields
  | .nil, _, _, _, _ => .nil
  | .cons k2 next rest2, k, idx, segsRest, v =>
    if k2 = k then
      .cons k2
        (match segsRest, next, idx with
         | [], .arr xs, idx2 =>
           if dlistAllStr xs then .arr (dlistOverwriteAll v xs)
           else
             match idx2 with
             | some i => if i < xs.length then .arr (dlistSetElem xs i (.str v))
                         else .str v
             | none => .str v
         | [], _, _ => .str v
         | seg2 :: rest3, .arr xs, some i =>
           if i < xs.length then .arr (setDListRec xs i (seg2 :: rest3) v)
           else .arr xs
         | _ :: _, next2, some _ => next2
         | seg2 :: rest3, next2, none => setDoc next2 (seg2 :: rest3) v)
        rest2
    else .cons k2 next (setFields rest2 k idx segsRest v)

/-- `_set(next_obj[idx], segs[1:])` on the in-range element. -/
def setDListRec : DList → Nat → List Seg → String → DList
  | .nil, _, _, _ => .nil
  | .cons x xs, 0, segs, v => .cons (setDoc x segs v) xs
  | .cons x xs, n + 1, segs, v => .cons x (setDListRec xs n segs v)
end

/-- `set_value_at_path`: parse the dotted path and run `_set`. -/
def set_value_at_path (obj : Doc) (path : String) (new_value : String) : Doc :=
  if path = "" then obj
  else setDoc obj ((pySplitDot path).map parse_segment) new_value

/-! ### The orchestrator (`deidentify_json`) -/

/-- `NON_PHI_KEYS` exactly as declared (including the duplicated
`"status"`). -/
def NON_PHI_KEYS : List String :=
  ["resourceType", "reference", "status", "code", "coding", "display",
   "system", "text", "id", "div", "status", "valueBoolean", "gender",
   "multipleBirthBoolean", "use", "clinicalStatus", "verificationStatus"]

/-- The clinical resource types the orchestrator skips (lowercased, as the
source compares them). -/
def SKIP_RESOURCE_TYPES : List String :=
  ["observation", "diagnosticreport", "medicationrequest",
   "medicationadministration", "medicationstatement",
   "procedure", "condition", "immunization"]

/-- Python `d.get(k, default)` on the dicts the orchestrator reads (the
bundle and its entries are dicts in every run that reaches this code; a
non-dict would raise `AttributeError` in the source and is mapped to the
default here). -/
def docGet (d : Doc) (k : String) (dflt : Doc) : Doc :=
  match d with
  | .obj fs => (fs.lookup k).getD dflt
  | _ => dflt

/-- `data.get("entry", [])` as a list of entries. -/
def bundleEntries (data : Doc) : List Doc :=
  match docGet data "entry" (Doc.arr .nil) with
  | .arr l => l.toList
  | _ => []

/-- `resource.get("resourceType", "Unknown")` (string field; a non-string
would raise at `.lower()` in the source). -/
def resourceTypeOf (resource : Doc) : String :=
  match docGet resource "resourceType" Doc.null with
  | .str s => s
  | _ => "Unknown"

/-- Flattened pairs contributed by one bundle entry: falsy resources and
clinical resource types contribute nothing; otherwise `walk_json` rooted at
the resource type name. -/
def entryPairs (entry : Doc) : List (String × String) :=
  let resource := docGet entry "resource" (Doc.obj .nil)
  if pyFalsy resource then []
  else
    let rtype := resourceTypeOf resource
    if SKIP_RESOURCE_TYPES.contains (pyLower rtype) then []
    else walk_json resource [rtype]

/-- The `flattened` list built by the first loop of `deidentify_json`. -/
def flattenBundle (data : Doc) : List (String × String) :=
  (bundleEntries data).flatMap entryPairs

/-- One row of the audit table (`all_entities`). -/
structure AuditRow where
  keypath : String
  original : String
  label : String
  confidence : ℚ
  source : String
  deriving DecidableEq

/-- `orig_keypath.lower().split(".")[-1]`. -/
def lastSegLower (kp : String) : String :=
  (pySplitDot (pyLower kp)).getLastD ""

/-- The strict deny-list test of the orchestrator:
`any(orig_keypath.lower().split(".")[-1] == k.lower() for k in NON_PHI_KEYS)`. -/
def isNonPhiLast (kp : String) : Bool :=
  NON_PHI_KEYS.any (fun k => lastSegLower kp == pyLower k)

/-- Resource-rooted keypath to the bundle-rooted path handed to the setter
(`orig_keypath.split(".", 1)`). -/
def targetPathOf (orig_keypath : String) : String :=
  match splitOnceDot orig_keypath with
  | some p => "entry.resource." ++ p.2
  | none => "entry.resource"

/-- Loop body of `deidentify_json` over one flattened `(keypath, value)`
pair, acting on the working document and the audit rows. -/
def deidStep (ner : Ner) (acc : Doc × List AuditRow) (kv : String × String) :
    Doc × List AuditRow :=
  let value_clean := pyStrip kv.2
  if value_clean = "" then acc
  else if isNonPhiLast kv.1 then acc
  else
    let r := deidentify_line kv.1 value_clean ner
    (set_value_at_path acc.1 (targetPathOf kv.1) r.1,
     acc.2 ++ r.2.map (fun e => ⟨kv.1, e.original, e.label, e.confidence,
       e.source⟩))

/-- `deidentify_json`: flatten the qualifying resources of the bundle, then
apply every per-leaf decision to a deep copy of the input. -/
def deidentify_json (data : Doc) (ner : Ner) : Doc × List AuditRow :=
  (flattenBundle data).foldl (deidStep ner) (deepcopyDoc data, [])

/-! ### A two-object store, to state the non-mutation contract

`deidentify_json` in the source mutates: it deep-copies the input into
`redacted_json` and every `set_value_at_path` call targets that copy.  The
store makes the two heap objects explicit, so that "the input object is
never mutated" is a statement and not a tautology of the functional
embedding: each loop iteration may write to either object, and the
definition below writes to `work` exactly where the source writes to
`redacted_json`. -/

structure Store where
  orig : Doc
  work : Doc
  deriving DecidableEq

/-- Loop body of the orchestrator acting on the two-object store: the write
of line 331 of the source targets the deep copy. -/
def deidStepStore (ner : Ner) (acc : Store × List AuditRow)
    (kv : String × String) : Store × List AuditRow :=
  let value_clean := pyStrip kv.2
  if value_clean = "" then acc
  else if isNonPhiLast kv.1 then acc
  else
    let r := deidentify_line kv.1 value_clean ner
    ({ acc.1 with work := set_value_at_path acc.1.work (targetPathOf kv.1) r.1 },
     acc.2 ++ r.2.map (fun e => ⟨kv.1, e.original, e.label, e.confidence,
       e.source⟩))

/-- `deidentify_json` on the explicit store: flattening reads the input
object, the store starts as (input, deep copy of input), and all writes go
through `deidStepStore`. -/
def deidentify_json_store (data : Doc) (ner : Ner) : Store × List AuditRow :=
  (flattenBundle data).foldl (deidStepStore ner) (⟨data, deepcopyDoc data⟩, [])

/-- Convenience constructor for field lists in concrete documents. -/
def Fields.ofList : List (String × Doc) → Fields
  | [] => .nil
  | (k, v) :: rest => .cons k v (Fields.ofList rest)

/-- Convenience constructor for element lists in concrete documents. -/
def DList.ofList : List Doc → DList
  | [] => .nil
  | x :: rest => .cons x (DList.ofList rest)

/-! ### Derived observations used in theorem statements -/

/-- The seven bracketed label tokens the pipeline substitutes. -/
def BRACKET_TOKENS : List String :=
  ["[NAME]", "[LOCATION]", "[DATE]", "[CONTACT]", "[ID]", "[WEB]", "[OTHER]"]

/-- The candidate the Regex Safeguard would produce on its own for a value
(first pattern of the library, in declared order, with a match). -/
def firstRegexLabel (value : String) : Option String :=
  (REGEX_PATTERNS.find? (fun e => !(findall e.pat value).isEmpty)).map
    (fun e => e.label)

/-- Element access on embedded lists (out-of-range positions read as
`null`; callers guard with `DList.length`). -/
def DList.get : DList → Nat → Doc
  | .nil, _ => .null
  | .cons x _, 0 => x
  | .cons _ xs, n + 1 => DList.get xs n

/-! ### A sufficient condition for shape-preserving writes

`safeDoc d segs` walks `d` exactly as `setDoc` does and requires, at every
point where the final segment's replacement lands, that the replaced node is
a string (or a list of strings, which is overwritten elementwise): under it
a write cannot change node kinds, key sets or array lengths.  The predicate
is the complement of the three wholesale-replacement situations of the
source's last-segment branch (non-string leaf, key bound to a dict, or a
list that is neither all-strings nor indexed in range by a string). -/

mutual
def safeDoc : Doc → List Seg → Bool
  | _, [] => true
  | .arr items, (k, some i) :: rest => safeDListAt items i ((k, some i) :: rest)
  | .arr items, (k, none) :: rest => safeDListAll items ((k, none) :: rest)
  | .obj fs, (k, idx) :: rest => safeFields fs k idx rest
  | _, _ :: _ => true

def safeDListAt : DList → Nat → List Seg → Bool
  | .nil, _, _ => true
  | .cons x _, 0, segs => safeDoc x segs
  | .cons _ xs, n + 1, segs => safeDListAt xs n segs

def safeDListAll : DList → List Seg → Bool
  | .nil, _ => true
  | .cons x xs, segs => safeDoc x segs && safeDListAll xs segs

def safeFields : Fields → String → Option Nat → List Seg → Bool
  | .nil, _, _, _ => true
  | .cons k2 next rest2, k, idx, segsRest =>
    if k2 = k then
      (match segsRest, next, idx with
       | [], .arr xs, idx2 =>
         if dlistAllStr xs then true
         else
           match idx2 with
           | some i => if i < xs.length then isStr (xs.get i) else false
           | none => false
       | [], .str _, _ => true
       | [], _, _ => false
       | seg2 :: rest3, .arr xs, some i =>
         if i < xs.length then safeDListRec xs i (seg2 :: rest3) else true
       | _ :: _, _, some _ => true
       | seg2 :: rest3, next2, none => safeDoc next2 (seg2 :: rest3))
    else safeFields rest2 k idx segsRest

def safeDListRec : DList → Nat → List Seg → Bool
  | .nil, _, _ => true
  | .cons x _, 0, segs => safeDoc x segs
  | .cons _ xs, n + 1, segs => safeDListRec xs n segs
end

/-! ### Concrete documents used by the counterexamples

Bundles are written with explicit constructors; each is a well-formed
FHIR-style bundle of the shape the orchestrator reads. -/

/-- A Patient whose field `a` is a list holding a PHI-looking string and a
nested object. -/
def cexStructBundle : Doc := Doc.obj (.ofList [("entry", Doc.arr (.ofList [
  Doc.obj (.ofList [("resource", Doc.obj (.ofList [
    ("resourceType", .str "Patient"),
    ("a", Doc.arr (.ofList [.str "Jon123",
      Doc.obj (.ofList [("c", .str "keep")])]))]))])]))])

/-- What the pipeline returns for `cexStructBundle`: the whole list under
`a` — nested object included — has been replaced by one string. -/
def cexStructRedacted : Doc := Doc.obj (.ofList [("entry", Doc.arr (.ofList [
  Doc.obj (.ofList [("resource", Doc.obj (.ofList [
    ("resourceType", .str "Patient"),
    ("a", .str "[NAME]")]))])]))])

/-- The Observation resource of the frame-effect counterexample, holding a
field named like the Patient's. -/
def cexObsIn : Doc := Doc.obj (.ofList [
  ("resourceType", .str "Observation"), ("b", .str "orig")])

/-- The same Observation after the pipeline ran: its field `b` was
overwritten by the wildcard write addressed at the Patient's leaf. -/
def cexObsOut : Doc := Doc.obj (.ofList [
  ("resourceType", .str "Observation"), ("b", .str "[NAME]")])

/-- A bundle holding a redactable Patient and a clinical Observation. -/
def cexFrameBundle : Doc := Doc.obj (.ofList [("entry", Doc.arr (.ofList [
  Doc.obj (.ofList [("resource", Doc.obj (.ofList [
    ("resourceType", .str "Patient"), ("b", .str "Jon123")]))]),
  Doc.obj (.ofList [("resource", cexObsIn)])]))])

/-- The pipeline's output for `cexFrameBundle`. -/
def cexFrameRedacted : Doc := Doc.obj (.ofList [("entry", Doc.arr (.ofList [
  Doc.obj (.ofList [("resource", Doc.obj (.ofList [
    ("resourceType", .str "Patient"), ("b", .str "[NAME]")]))]),
  Doc.obj (.ofList [("resource", cexObsOut)])]))])

/-- A Patient with a deny-listed leaf (`id`) inside a heterogeneous list that
also holds a PHI-looking string. -/
def cexDenyBundle : Doc := Doc.obj (.ofList [("entry", Doc.arr (.ofList [
  Doc.obj (.ofList [("resource", Doc.obj (.ofList [
    ("resourceType", .str "Patient"),
    ("a", Doc.arr (.ofList [Doc.obj (.ofList [("id", .str "keep")]),
      .str "Jon123"]))]))])]))])

/-- The pipeline's output for `cexDenyBundle`: the write for `Patient.a`
replaced the whole list, deleting the deny-listed `id` leaf. -/
def cexDenyRedacted : Doc := Doc.obj (.ofList [("entry", Doc.arr (.ofList [
  Doc.obj (.ofList [("resource", Doc.obj (.ofList [
    ("resourceType", .str "Patient"),
    ("a", .str "[NAME]")]))])]))])

/-- A Patient whose `name` holds a five-digit string: the keypath hint says
NAME but the step-4 post-fix rewrites to `[LOCATION]`. -/
def cexIdemBundle : Doc := Doc.obj (.ofList [("entry", Doc.arr (.ofList [
  Doc.obj (.ofList [("resource", Doc.obj (.ofList [
    ("resourceType", .str "Patient"), ("name", .str "12345")]))])]))])

/-- First run's output for `cexIdemBundle`. -/
def cexIdemOnce : Doc := Doc.obj (.ofList [("entry", Doc.arr (.ofList [
  Doc.obj (.ofList [("resource", Doc.obj (.ofList [
    ("resourceType", .str "Patient"), ("name", .str "[LOCATION]")]))])]))])

/-- Second run's output: the bracketed `[LOCATION]` leaf was rewritten to
`[NAME]` by the keypath hint. -/
def cexIdemTwice : Doc := Doc.obj (.ofList [("entry", Doc.arr (.ofList [
  Doc.obj (.ofList [("resource", Doc.obj (.ofList [
    ("resourceType", .str "Patient"), ("name", .str "[NAME]")]))])]))])

/-- A model that flags the substring `"555"` of `"Alice 555"` as an ID with
confidence `0.9` (one possible behaviour of the black-box NER service). -/
def nerId555 : Ner := fun v =>
  if v = "Alice 555" then
    [⟨"555", "ID", 6, 9, mkRat 9 10⟩]
  else []

/-- The initial `LineState` of `deidentify_line` for a value. -/
def initState (value : String) : LineState := ⟨value, false, none, none, 0⟩


/-! ### Basic lemmas about the detector stages -/

theorem round3_one : round3 1 = 1 := by decide

/-- A model prediction below the confidence threshold changes nothing. -/
theorem modelStep_skip (st : LineState) (p : NerPred)
    (h : ¬ CONF_THRESHOLD ≤ p.score) : modelStep st p = st := by
  unfold modelStep
  simp [h]

/-- If no merged prediction reaches the threshold, step 1 leaves the state
unchanged. -/
theorem modelFold_skip (preds : List NerPred) (st : LineState)
    (h : ∀ p ∈ preds, ¬ CONF_THRESHOLD ≤ p.score) :
    preds.foldl modelStep st = st := by
  induction preds generalizing st with
  | nil => rfl
  | cons p rest ih =>
    rw [List.foldl_cons, modelStep_skip st p (h p (by simp))]
    exact ih st (fun q hq => h q (by simp [hq]))

/-- The keypath stage never touches the confidence accumulator. -/
theorem keypathStage_conf (kp : String) (st : LineState) :
    (keypathStage kp st).confidence_score = st.confidence_score := by
  unfold keypathStage
  rcases keypathHint (pyLower kp) with _ | hint
  · rfl
  · dsimp only
    split
    · rfl
    · rfl

/-- If the keypath hint fires, the chosen label after step 2 has at least
the hint's priority. -/
theorem keypathStage_hint_le (kp : String) (st : LineState) (hint : String)
    (h : keypathHint (pyLower kp) = some hint) :
    LABEL_PRIORITY hint ≤ priorityGet (keypathStage kp st).chosen_label := by
  unfold keypathStage
  rw [h]
  dsimp only
  split
  · exact Nat.le_refl _
  · rename_i hcond
    have hb := Bool.eq_false_iff.mpr hcond
    rw [Bool.or_eq_false_iff] at hb
    have := of_decide_eq_false hb.2
    omega

/-- A pattern of the library either leaves the state unchanged or raises
(never lowers) the priority of the chosen label. -/
theorem regexPatternStep_mono (value : String) (st : LineState)
    (e : RegexEntry) :
    priorityGet st.chosen_label ≤
      priorityGet (regexPatternStep value st e).chosen_label := by
  unfold regexPatternStep
  rcases findall e.pat value with _ | ⟨m, ms⟩
  · exact Nat.le_refl _
  · dsimp only
    split
    · rename_i hcond
      rw [Bool.or_eq_true] at hcond
      rcases hcond with h1 | h2
      · rw [Option.isNone_iff_eq_none.mp h1]
        exact Nat.zero_le _
      · exact of_decide_eq_true h2
    · exact Nat.le_refl _

/-- Priority of the chosen label is nondecreasing across any run of
patterns. -/
theorem regexFold_mono (value : String) (ps : List RegexEntry)
    (st : LineState) :
    priorityGet st.chosen_label ≤
      priorityGet ((ps.foldl (regexPatternStep value) st)).chosen_label := by
  induction ps generalizing st with
  | nil => exact Nat.le_refl _
  | cons e rest ih =>
    rw [List.foldl_cons]
    exact Nat.le_trans (regexPatternStep_mono value st e)
      (ih (regexPatternStep value st e))

/-- A pattern with no match leaves the state unchanged. -/
theorem regexPatternStep_skip (value : String) (st : LineState)
    (e : RegexEntry) (h : findall e.pat value = []) :
    regexPatternStep value st e = st := by
  unfold regexPatternStep
  rw [h]

/-- If no pattern matches the value, step 3 leaves the state unchanged. -/
theorem regexFold_skip (value : String) (ps : List RegexEntry)
    (st : LineState) (h : ∀ e ∈ ps, findall e.pat value = []) :
    ps.foldl (regexPatternStep value) st = st := by
  induction ps generalizing st with
  | nil => rfl
  | cons e rest ih =>
    rw [List.foldl_cons, regexPatternStep_skip value st e (h e (by simp))]
    exact ih st (fun q hq => h q (by simp [hq]))

/-- Each pattern step either does nothing or stamps the source `regex`. -/
theorem regexPatternStep_source (value : String) (st : LineState)
    (e : RegexEntry) :
    regexPatternStep value st e = st ∨
      (regexPatternStep value st e).redaction_source = some "regex" := by
  unfold regexPatternStep
  rcases findall e.pat value with _ | ⟨m, ms⟩
  · exact Or.inl rfl
  · dsimp only
    split
    · exact Or.inr rfl
    · exact Or.inl rfl

/-- Step 3 as a whole either does nothing or stamps the source `regex`. -/
theorem regexFold_source (value : String) (ps : List RegexEntry)
    (st : LineState) :
    ps.foldl (regexPatternStep value) st = st ∨
      ((ps.foldl (regexPatternStep value) st)).redaction_source =
        some "regex" := by
  induction ps generalizing st with
  | nil => exact Or.inl rfl
  | cons e rest ih =>
    rw [List.foldl_cons]
    rcases regexPatternStep_source value st e with h | h
    · rw [h]
      exact ih st
    · rcases ih (regexPatternStep value st e) with h2 | h2
      · rw [h2]
        exact Or.inr h
      · exact Or.inr h2

/-- A pattern that has a match bounds the resulting priority from below by
its own label's priority (it either applies, choosing its label, or was
beaten by an already strictly higher priority). -/
theorem regexPatternStep_matched_le (value : String) (st : LineState)
    (e : RegexEntry) (hm : findall e.pat value ≠ []) :
    LABEL_PRIORITY e.label ≤
      priorityGet (regexPatternStep value st e).chosen_label := by
  unfold regexPatternStep
  cases hf : findall e.pat value with
  | nil => exact absurd hf hm
  | cons m ms =>
    dsimp only
    split
    · exact Nat.le_refl _
    · rename_i hcond
      have hb := Bool.eq_false_iff.mpr hcond
      rw [Bool.or_eq_false_iff] at hb
      have h2 := of_decide_eq_false hb.2
      omega

/-- The first matching pattern of the run bounds the final priority from
below. -/
theorem regexFold_first_label (value : String) (ps : List RegexEntry)
    (st : LineState) (e0 : RegexEntry)
    (h : ps.find? (fun e => !(findall e.pat value).isEmpty) = some e0) :
    LABEL_PRIORITY e0.label ≤
      priorityGet ((ps.foldl (regexPatternStep value) st)).chosen_label := by
  induction ps generalizing st with
  | nil => simp at h
  | cons e rest ih =>
    rw [List.foldl_cons]
    by_cases hm : (findall e.pat value).isEmpty
    · rw [regexPatternStep_skip value st e (List.isEmpty_iff.mp hm)]
      refine ih st ?_
      rwa [List.find?_cons_of_neg _ (by simp [hm])] at h
    · have he0 : e0 = e := by
        rw [List.find?_cons_of_pos _ (by simp [hm])] at h
        exact (Option.some.inj h).symm
      subst he0
      exact Nat.le_trans
        (regexPatternStep_matched_le value st e0
          (by simpa [List.isEmpty_iff] using hm))
        (regexFold_mono value rest _)

/-! ### Claim C4 — Regex Safeguard, one contribution per leaf -/

/-- Claim C4, counterexample: on `"Boston, MA 555-123-4567"` the
`LOCATION` pattern (`City, ST`) is the first matching pattern and is
applied (that is the state after the first two library entries), yet the
later `CONTACT` pattern still modifies both the working string and the
chosen label: the `break` of the source ends only the scan of one
pattern's own matches, not the iteration over the library. -/
theorem c4_counterexample :
    (List.take 2 REGEX_PATTERNS).foldl
        (regexPatternStep "Boston, MA 555-123-4567")
        (initState "Boston, MA 555-123-4567") =
      ⟨"[LOCATION] 555-123-4567", true, some "LOCATION", some "regex", 1⟩
    ∧ regexStage "Boston, MA 555-123-4567"
        (initState "Boston, MA 555-123-4567") =
      ⟨"[LOCATION] [CONTACT]", true, some "CONTACT", some "regex", 1⟩ := by
  constructor
  · decide
  · decide

/-- Claim C4, amended: the Regex Safeguard applies at most one substitution
per pattern (the first `findall` match), but later patterns of the library
can still fire; every application requires the pattern's label priority to
be at least the current chosen label's, so the chosen priority never
decreases across the regex stage. -/
theorem c4_regex_priority_monotone (value : String) (st : LineState) :
    priorityGet st.chosen_label ≤
      priorityGet (regexStage value st).chosen_label :=
  regexFold_mono value REGEX_PATTERNS st

/-! ### Claim C5 — priority monotonicity of the final decision -/

/-- Claim C5, counterexample: at keypath `patient.identifier` with value
`"555-123-4567"` both the Keypath Heuristic (candidate `ID`, priority 1)
and the Regex Safeguard (candidate `CONTACT`, priority 5) would fire, but
the final decision keeps label `ID`: the keypath stage's bracketed token
suppresses the regex stage entirely, so the final priority is smaller than
the regex candidate's. -/
theorem c5_counterexample :
    deidentify_line "patient.identifier" "555-123-4567" nerNone =
      ("[ID]", [⟨"ID", "555-123-4567", 1, "keypath"⟩])
    ∧ keypathHint (pyLower "patient.identifier") = some "ID"
    ∧ firstRegexLabel "555-123-4567" = some "CONTACT"
    ∧ LABEL_PRIORITY "ID" < LABEL_PRIORITY "CONTACT" := by
  refine ⟨by decide, by decide, by decide, by decide⟩

/-- Claim C5, amended: after the regex stage (before the step-4 contextual
fixes) the chosen label's priority dominates the Keypath candidate's
always, and dominates the Regex candidate's whenever the regex stage
actually runs (the step-3 guard holds); the step-4 post-fixes and the
guard's suppression of the regex stage are the two ways the original claim
fails. -/
theorem afterStep3_def (kp value : String) (ner : Ner) :
    afterStep3 kp value ner =
      if regexGuard (afterStep2 kp value ner)
      then regexStage value (afterStep2 kp value ner)
      else afterStep2 kp value ner := rfl

theorem c5_priority_bounds (kp value : String) (ner : Ner) :
    (∀ h, keypathHint (pyLower kp) = some h →
      LABEL_PRIORITY h ≤ priorityGet (afterStep3 kp value ner).chosen_label)
    ∧ (∀ L, regexGuard (afterStep2 kp value ner) = true →
      firstRegexLabel value = some L →
      LABEL_PRIORITY L ≤
        priorityGet (afterStep3 kp value ner).chosen_label) := by
  constructor
  · intro h hh
    have h2 : LABEL_PRIORITY h ≤
        priorityGet (afterStep2 kp value ner).chosen_label :=
      keypathStage_hint_le kp _ h hh
    rw [afterStep3_def]
    split
    · exact Nat.le_trans h2 (regexFold_mono value REGEX_PATTERNS _)
    · exact h2
  · intro L hg hL
    rw [afterStep3_def, if_pos hg]
    unfold firstRegexLabel at hL
    rw [Option.map_eq_some'] at hL
    obtain ⟨e0, hfind, hlab⟩ := hL
    rw [← hlab]
    exact regexFold_first_label value REGEX_PATTERNS _ e0 hfind

/-- Claim C5, witness: the amended bounds evaluated at both a keypath
candidate and a regex candidate. -/
theorem c5_witness :
    LABEL_PRIORITY "ID" ≤
      priorityGet
        (afterStep3 "patient.identifier" "555-123-4567" nerNone).chosen_label
    ∧ LABEL_PRIORITY "CONTACT" ≤
      priorityGet (afterStep3 "zzz" "555-123-4567" nerNone).chosen_label :=
  ⟨(c5_priority_bounds "patient.identifier" "555-123-4567" nerNone).1 "ID"
      (by decide),
   (c5_priority_bounds "zzz" "555-123-4567" nerNone).2 "CONTACT" (by decide)
      (by decide)⟩

/-- Unfolding of `deidentify_line` in the non-blank case. -/
theorem deidentify_line_eq (kp value : String) (ner : Ner)
    (hs : pyStrip value ≠ "") :
    deidentify_line kp value ner =
      ((contextualFixes value (afterStep3 kp value ner)).1,
        match (contextualFixes value (afterStep3 kp value ner)).2 with
        | some lbl => [⟨lbl, value,
            round3 (if (afterStep3 kp value ner).confidence_score = 0 then 1
              else (afterStep3 kp value ner).confidence_score),
            (afterStep3 kp value ner).redaction_source.getD "model"⟩]
        | none => []) := by
  unfold deidentify_line
  rw [if_neg hs]
  cases hc : (contextualFixes value (afterStep3 kp value ner)).2 with
  | none => simp only [hc]
  | some lbl => simp only [hc]

/-! ### Claim C9 — keypath decisions and recorded confidence -/

/-- Claim C9, counterexample: when the model flags a span with confidence
`0.9` and the keypath hint then overrides with a higher-priority label, the
final decision has source `keypath` but records the model's confidence
`0.9`, not `1.0`. -/
theorem c9_counterexample :
    deidentify_line "patient.name.family" "Alice 555" nerId555 =
      ("[NAME]", [⟨"NAME", "Alice 555", mkRat 9 10, "keypath"⟩])
    ∧ mkRat 9 10 ≠ 1 := by
  refine ⟨by decide, by decide⟩

/-- Claim C9, amended: the Keypath Heuristic itself carries no confidence
(it never touches `confidence_score`); a decision whose source is
`keypath` records confidence `1.0` provided the model stage contributed no
qualifying span (otherwise the model's confidence is retained). -/
theorem c9_keypath_confidence_one (kp value : String) (ner : Ner)
    (hm : ∀ p ∈ merge_entities (ner value), ¬ CONF_THRESHOLD ≤ p.score) :
    ∀ row ∈ (deidentify_line kp value ner).2, row.source = "keypath" →
      row.confidence = 1 := by
  intro row hrow hsrc
  by_cases hs : pyStrip value = ""
  · rw [show deidentify_line kp value ner = (value, []) from by
      unfold deidentify_line; rw [if_pos hs]] at hrow
    simp at hrow
  · rw [deidentify_line_eq kp value ner hs] at hrow
    cases hc : (contextualFixes value (afterStep3 kp value ner)).2 with
    | none =>
      rw [hc] at hrow
      simp at hrow
    | some lbl =>
      rw [hc] at hrow
      simp only [List.mem_singleton] at hrow
      subst hrow
      have hst12 : afterStep2 kp value ner = keypathStage kp (initState value) := by
        unfold afterStep2
        rw [modelFold_skip _ _ hm]
        rfl
      have hcases : afterStep3 kp value ner = afterStep2 kp value ner ∨
          (afterStep3 kp value ner).redaction_source = some "regex" := by
        rw [afterStep3_def]
        split
        · exact regexFold_source value REGEX_PATTERNS (afterStep2 kp value ner)
        · exact Or.inl rfl
      rcases hcases with he | he
      · have hconf : (afterStep3 kp value ner).confidence_score = 0 := by
          rw [he, hst12, keypathStage_conf]
          rfl
        simp [hconf, round3_one]
      · rw [he] at hsrc
        simp at hsrc

/-- Claim C9, witness: the amended statement at a keypath-sourced decision
with no model contribution. -/
theorem c9_witness :
    ((⟨"LOCATION", "12345", 1, "keypath"⟩ : LineSummary)).confidence = 1 :=
  c9_keypath_confidence_one "patient.name" "12345" nerNone
    (fun p hp => by simp [nerNone, merge_entities] at hp)
    ⟨"LOCATION", "12345", 1, "keypath"⟩ (by decide) (by decide)

/-! ### Claim C10 — post-fix-only leaves audit as `model` with confidence 1 -/

/-- Claim C10: when none of the three detectors produces a candidate (no
keypath hint, no qualifying model span, no matching library pattern) but a
step-4 contextual fix fires on the trimmed value, `deidentify_line` still
emits exactly one audit row, reporting source `model` and confidence `1.0`
although the model contributed nothing. -/
theorem c10_postfix_audit_row (kp value : String) (ner : Ner) (lbl : String)
    (hkp : keypathHint (pyLower kp) = none)
    (hm : ∀ p ∈ merge_entities (ner value), ¬ CONF_THRESHOLD ≤ p.score)
    (hre : ∀ e ∈ REGEX_PATTERNS, findall e.pat value = [])
    (hfix : (contextualFixes value (initState value)).2 = some lbl) :
    deidentify_line kp value ner =
      ((contextualFixes value (initState value)).1,
        [⟨lbl, value, 1, "model"⟩]) := by
  have hne : pyStrip value ≠ "" := by
    intro hs
    unfold contextualFixes at hfix
    rw [hs] at hfix
    simp only [show fullmatchRE RE_2UPPER "" = false from by decide,
      show fullmatchRE RE_5DIGIT "" = false from by decide,
      show fullmatchRE RE_CAPDIGITS "" = false from by decide,
      Bool.false_eq_true, if_false] at hfix
    exact absurd hfix (by simp [initState])
  have hst3 : afterStep3 kp value ner = initState value := by
    have h2 : afterStep2 kp value ner = initState value := by
      unfold afterStep2
      rw [modelFold_skip _ _ hm]
      unfold keypathStage
      rw [hkp]
      rfl
    rw [afterStep3_def, h2, if_pos (by rfl)]

    exact regexFold_skip value REGEX_PATTERNS _ hre
  rw [deidentify_line_eq kp value ner hne, hst3, hfix]
  simp [initState, round3_one]

/-- Claim C10, witness: the two-uppercase-letter value `"NY"` at a neutral
keypath matches no detector, yet yields one `model`-sourced audit row with
confidence `1.0`. -/
theorem c10_witness :
    deidentify_line "zzz" "NY" nerNone = ("[LOCATION]",
      [⟨"LOCATION", "NY", 1, "model"⟩]) := by
  have h := c10_postfix_audit_row "zzz" "NY" nerNone "LOCATION" (by decide)
    (fun p hp => by simp [nerNone, merge_entities] at hp) (by decide) (by decide)
  rw [h]
  decide

/-! ### Claim C3 — the structural deny-list -/

/-- Claim C3, counterexample: the deny-listed leaf `Patient.a.id` (value
`"keep"`) is skipped by the orchestrator, but the write for the sibling
leaf `Patient.a` replaces the whole heterogeneous list under `a`, so the
deny-listed leaf does not survive into the output at all (the output's
flattening no longer contains it), contradicting "the value of that leaf in
the redacted output equals its value in the input exactly". -/
theorem c3_counterexample :
    flattenBundle cexDenyBundle =
      [("Patient.resourceType", "Patient"), ("Patient.a.id", "keep"),
        ("Patient.a", "Jon123")]
    ∧ isNonPhiLast "Patient.a.id" = true
    ∧ deidentify_json cexDenyBundle nerNone =
      (cexDenyRedacted, [⟨"Patient.a", "Jon123", "NAME", 1, "regex"⟩])
    ∧ flattenBundle cexDenyRedacted =
      [("Patient.resourceType", "Patient"), ("Patient.a", "[NAME]")] := by
  refine ⟨by decide, by decide, by decide, by decide⟩

/-- One orchestrator iteration keeps the audit table free of deny-listed
final segments. -/
theorem deidStep_nonphi (ner : Ner) (acc : Doc × List AuditRow)
    (kv : String × String)
    (h : acc.2.all (fun r => !isNonPhiLast r.keypath) = true) :
    ((deidStep ner acc kv).2).all (fun r => !isNonPhiLast r.keypath) = true := by
  unfold deidStep
  dsimp only
  split
  · exact h
  · split
    · exact h
    · rename_i h1 h2
      rw [List.all_append, Bool.and_eq_true]
      refine ⟨h, ?_⟩
      rw [List.all_eq_true]
      intro r hr
      rw [List.mem_map] at hr
      obtain ⟨e, -, he⟩ := hr
      rw [← he]
      simpa using h2

/-- The audit-table invariant holds across the whole fold. -/
theorem deidFold_nonphi (ner : Ner) (l : List (String × String))
    (acc : Doc × List AuditRow)
    (h : acc.2.all (fun r => !isNonPhiLast r.keypath) = true) :
    (((l.foldl (deidStep ner) acc)).2).all
      (fun r => !isNonPhiLast r.keypath) = true := by
  induction l generalizing acc with
  | nil => exact h
  | cons kv rest ih =>
    rw [List.foldl_cons]
    exact ih _ (deidStep_nonphi ner acc kv h)

/-- Claim C3, amended: a deny-listed leaf is never itself selected for
redaction and never produces an audit row — every audit row's final keypath
segment is outside the deny-list; its value survives in the output except
when the write for a different leaf replaces one of its ancestor nodes
wholesale (as the counterexample shows). -/
theorem c3_no_audit_for_denylist (data : Doc) (ner : Ner) :
    ((deidentify_json data ner).2).all
      (fun r => !isNonPhiLast r.keypath) = true := by
  unfold deidentify_json
  exact deidFold_nonphi ner _ _ (by simp)

/-! ### Claim C2 — clinical resources are not left unchanged -/

/-- Claim C2: the Observation resource contributes nothing to the flattened
list (hence zero audit rows), but the wildcard write for the Patient's leaf
`Patient.b` fans out over **every** entry of the bundle and overwrites the
Observation's same-named field: `cexObsIn.b = "orig"` in the input becomes
`"[NAME]"` in the output, so the resource is *not* copied unchanged. -/
theorem c2_clinical_resource_overwritten :
    deidentify_json cexFrameBundle nerNone =
      (cexFrameRedacted, [⟨"Patient.b", "Jon123", "NAME", 1, "regex"⟩])
    ∧ flattenBundle cexFrameBundle =
      [("Patient.resourceType", "Patient"), ("Patient.b", "Jon123")]
    ∧ docGet cexObsIn "b" Doc.null = .str "orig"
    ∧ docGet cexObsOut "b" Doc.null = .str "[NAME]" := by
  refine ⟨by decide, by decide, by decide, by decide⟩

/-! ### Claim C7 — the input object is never mutated -/

mutual
/-- `copy.deepcopy` returns a value equal to its input. -/
theorem deepcopyDoc_eq : ∀ d : Doc, deepcopyDoc d = d
  | .obj fs => by simp only [deepcopyDoc, deepcopyFields_eq fs]
  | .arr l => by simp only [deepcopyDoc, deepcopyDList_eq l]
  | .str _ => rfl
  | .num _ => rfl
  | .bool _ => rfl
  | .null => rfl

theorem deepcopyFields_eq : ∀ fs : Fields, deepcopyFields fs = fs
  | .nil => rfl
  | .cons k v rest => by
    simp only [deepcopyFields, deepcopyDoc_eq v, deepcopyFields_eq rest]

theorem deepcopyDList_eq : ∀ l : DList, deepcopyDList l = l
  | .nil => rfl
  | .cons x rest => by
    simp only [deepcopyDList, deepcopyDoc_eq x, deepcopyDList_eq rest]
end

/-- One store iteration never writes to the original object. -/
theorem deidStepStore_orig (ner : Ner) (acc : Store × List AuditRow)
    (kv : String × String) :
    ((deidStepStore ner acc kv).1).orig = acc.1.orig := by
  unfold deidStepStore
  dsimp only
  split
  · rfl
  · split
    · rfl
    · rfl

/-- The original object survives the whole fold untouched. -/
theorem storeFold_orig (ner : Ner) (l : List (String × String))
    (acc : Store × List AuditRow) :
    (((l.foldl (deidStepStore ner) acc)).1).orig = acc.1.orig := by
  induction l generalizing acc with
  | nil => rfl
  | cons kv rest ih =>
    rw [List.foldl_cons]
    rw [ih _, deidStepStore_orig]

/-- The working object of the store evolves exactly as the plain
orchestrator's document, with the same audit rows. -/
theorem storeFold_work (ner : Ner) (l : List (String × String)) :
    ∀ (s : Store) (rows : List AuditRow),
      ((l.foldl (deidStepStore ner) (s, rows)).1).work =
        (l.foldl (deidStep ner) (s.work, rows)).1
      ∧ (l.foldl (deidStepStore ner) (s, rows)).2 =
        (l.foldl (deidStep ner) (s.work, rows)).2 := by
  induction l with
  | nil => exact fun s rows => ⟨rfl, rfl⟩
  | cons kv rest ih =>
    intro s rows
    rw [List.foldl_cons, List.foldl_cons]
    have hstep :
        deidStepStore ner (s, rows) kv =
          (⟨s.orig, (deidStep ner (s.work, rows) kv).1⟩,
            (deidStep ner (s.work, rows) kv).2) := by
      unfold deidStepStore deidStep
      dsimp only
      split
      · rfl
      · split
        · rfl
        · rfl
    rw [hstep]
    exact ih ⟨s.orig, (deidStep ner (s.work, rows) kv).1⟩ _

/-- Claim C7: in the two-object semantics of the orchestrator, the caller's
input object is returned exactly as passed (no write ever targets it), the
working copy coincides with `deidentify_json`'s redacted output, and the
deep copy it started from is equal in content to the input — so callers can
diff original versus redacted safely. -/
theorem c7_original_never_mutated (data : Doc) (ner : Ner) :
    (deidentify_json_store data ner).1.orig = data
    ∧ (deidentify_json_store data ner).1.work = (deidentify_json data ner).1
    ∧ (deidentify_json_store data ner).2 = (deidentify_json data ner).2
    ∧ deepcopyDoc data = data := by
  refine ⟨?_, ?_, ?_, deepcopyDoc_eq data⟩
  · unfold deidentify_json_store
    rw [storeFold_orig]
  · unfold deidentify_json_store deidentify_json
    exact (storeFold_work ner _ ⟨data, deepcopyDoc data⟩ []).1
  · unfold deidentify_json_store deidentify_json
    exact (storeFold_work ner _ ⟨data, deepcopyDoc data⟩ []).2

/-! ### Shape preservation of the path rewriter -/

mutual
theorem sameShapeDoc_refl : ∀ d : Doc, sameShapeDoc d d = true
  | .obj fs => by
    simp only [sameShapeDoc]
    exact sameShapeFields_refl fs
  | .arr l => by
    simp only [sameShapeDoc]
    exact sameShapeDList_refl l
  | .str _ => rfl
  | .num n => by simp [sameShapeDoc]
  | .bool b => by simp [sameShapeDoc]
  | .null => rfl

theorem sameShapeFields_refl : ∀ fs : Fields, sameShapeFields fs fs = true
  | .nil => rfl
  | .cons k v rest => by
    simp only [sameShapeFields]
    rw [sameShapeDoc_refl v, sameShapeFields_refl rest]
    simp

theorem sameShapeDList_refl : ∀ l : DList, sameShapeDList l l = true
  | .nil => rfl
  | .cons x rest => by
    simp only [sameShapeDList]
    rw [sameShapeDoc_refl x, sameShapeDList_refl rest]
    simp
end

/-- `setDoc` with no segments is the identity. -/
theorem setDoc_nil (d : Doc) (v : String) : setDoc d [] v = d := by
  cases d <;> rfl

/-- Overwriting each element of an all-strings list with a string keeps the
shape. -/
theorem allStr_overwrite_shape (v : String) :
    ∀ xs : DList, dlistAllStr xs = true →
      sameShapeDList xs (dlistOverwriteAll v xs) = true
  | .nil, _ => rfl
  | .cons x rest, h => by
    simp only [dlistAllStr, Bool.and_eq_true] at h
    obtain ⟨hx, hrest⟩ := h
    simp only [dlistOverwriteAll, sameShapeDList, Bool.and_eq_true]
    refine ⟨?_, allStr_overwrite_shape v rest hrest⟩
    cases x <;> simp_all [isStr, sameShapeDoc]

/-- Replacing a string element of a list by a string keeps the shape. -/
theorem setElem_shape (v : String) :
    ∀ (xs : DList) (i : Nat), isStr (xs.get i) = true →
      sameShapeDList xs (dlistSetElem xs i (.str v)) = true
  | .nil, _, _ => rfl
  | .cons x rest, 0, h => by
    simp only [DList.get] at h
    simp only [dlistSetElem, sameShapeDList, Bool.and_eq_true]
    refine ⟨?_, sameShapeDList_refl rest⟩
    cases x <;> simp_all [isStr, sameShapeDoc]
  | .cons x rest, n + 1, h => by
    simp only [DList.get] at h
    simp only [dlistSetElem, sameShapeDList, Bool.and_eq_true]
    exact ⟨sameShapeDoc_refl x, setElem_shape v rest n h⟩

/-- Congruence helpers for `sameShapeFields` at a cons cell. -/
theorem sameShapeFields_cons_self (k : String) (a b : Doc) (rest : Fields)
    (h : sameShapeDoc a b = true) :
    sameShapeFields (.cons k a rest) (.cons k b rest) = true := by
  simp [sameShapeFields, h, sameShapeFields_refl rest]

theorem sameShapeFields_cons_rest (k : String) (a : Doc) (r1 r2 : Fields)
    (h : sameShapeFields r1 r2 = true) :
    sameShapeFields (.cons k a r1) (.cons k a r2) = true := by
  simp [sameShapeFields, sameShapeDoc_refl a, h]

theorem setFields_cons_ne (k2 k : String) (next : Doc) (rest2 : Fields)
    (idx : Option Nat) (segsRest : List Seg) (v : String) (hk : k2 ≠ k) :
    setFields (.cons k2 next rest2) k idx segsRest v =
      .cons k2 next (setFields rest2 k idx segsRest v) := by
  rw [setFields.eq_def]
  dsimp only
  rw [if_neg hk]

theorem safeFields_cons_ne (k2 k : String) (next : Doc) (rest2 : Fields)
    (idx : Option Nat) (segsRest : List Seg) (hk : k2 ≠ k) :
    safeFields (.cons k2 next rest2) k idx segsRest =
      safeFields rest2 k idx segsRest := by
  rw [safeFields.eq_def]
  dsimp only
  rw [if_neg hk]

theorem setFields_cons_eq (k2 k : String) (next : Doc) (rest2 : Fields)
    (idx : Option Nat) (segsRest : List Seg) (v : String) (hk : k2 = k) :
    setFields (.cons k2 next rest2) k idx segsRest v =
      .cons k2
        (match segsRest, next, idx with
         | [], .arr xs, idx2 =>
           if dlistAllStr xs then .arr (dlistOverwriteAll v xs)
           else
             match idx2 with
             | some i => if i < xs.length then .arr (dlistSetElem xs i (.str v))
                         else .str v
             | none => .str v
         | [], _, _ => .str v
         | seg2 :: rest3, .arr xs, some i =>
           if i < xs.length then .arr (setDListRec xs i (seg2 :: rest3) v)
           else .arr xs
         | _ :: _, next2, some _ => next2
         | seg2 :: rest3, next2, none => setDoc next2 (seg2 :: rest3) v)
        rest2 := by
  rw [setFields.eq_def]
  dsimp only
  rw [if_pos hk]

theorem safeFields_cons_eq (k2 k : String) (next : Doc) (rest2 : Fields)
    (idx : Option Nat) (segsRest : List Seg) (hk : k2 = k) :
    safeFields (.cons k2 next rest2) k idx segsRest =
      (match segsRest, next, idx with
       | [], .arr xs, idx2 =>
         if dlistAllStr xs then true
         else
           match idx2 with
           | some i => if i < xs.length then isStr (xs.get i) else false
           | none => false
       | [], .str _, _ => true
       | [], _, _ => false
       | seg2 :: rest3, .arr xs, some i =>
         if i < xs.length then safeDListRec xs i (seg2 :: rest3) else true
       | _ :: _, _, some _ => true
       | seg2 :: rest3, next2, none => safeDoc next2 (seg2 :: rest3)) := by
  rw [safeFields.eq_def]
  dsimp only
  rw [if_pos hk]

theorem sameShapeDoc_arr (xs ys : DList) :
    sameShapeDoc (.arr xs) (.arr ys) = sameShapeDList xs ys := by
  rw [sameShapeDoc.eq_def]

theorem sameShapeDoc_obj (a b : Fields) :
    sameShapeDoc (.obj a) (.obj b) = sameShapeFields a b := by
  rw [sameShapeDoc.eq_def]

theorem sameShapeDoc_str (a b : String) :
    sameShapeDoc (.str a) (.str b) = true := by
  rw [sameShapeDoc.eq_def]

theorem sameShapeDList_cons (x y : Doc) (xs ys : DList) :
    sameShapeDList (.cons x xs) (.cons y ys) =
      (sameShapeDoc x y && sameShapeDList xs ys) := by
  rw [sameShapeDList.eq_def]


mutual
/-- Under `safeDoc`, a write preserves shape at every position. -/
theorem safe_setDoc : ∀ (d : Doc) (segs : List Seg) (v : String),
    safeDoc d segs = true → sameShapeDoc d (setDoc d segs v) = true
  | d, [], v, _ => by
    rw [setDoc_nil]
    exact sameShapeDoc_refl d
  | .arr items, (k, some i) :: rest, v, h => by
    rw [setDoc.eq_def]
    dsimp only
    rw [sameShapeDoc_arr]
    refine safe_setDListAt items i ((k, some i) :: rest) v ?_
    rw [safeDoc.eq_def] at h
    exact h
  | .arr items, (k, none) :: rest, v, h => by
    rw [setDoc.eq_def]
    dsimp only
    rw [sameShapeDoc_arr]
    refine safe_setDListAll items ((k, none) :: rest) v ?_
    rw [safeDoc.eq_def] at h
    exact h
  | .obj fs, (k, some i) :: rest, v, h => by
    rw [setDoc.eq_def]
    dsimp only
    rw [sameShapeDoc_obj]
    refine safe_setFields fs k (some i) rest v ?_
    rw [safeDoc.eq_def] at h
    exact h
  | .obj fs, (k, none) :: rest, v, h => by
    rw [setDoc.eq_def]
    dsimp only
    rw [sameShapeDoc_obj]
    refine safe_setFields fs k none rest v ?_
    rw [safeDoc.eq_def] at h
    exact h
  | .str s, (k, some i) :: rest, v, _ => by
    rw [setDoc.eq_def]
    exact sameShapeDoc_refl (.str s)
  | .str s, (k, none) :: rest, v, _ => by
    rw [setDoc.eq_def]
    exact sameShapeDoc_refl (.str s)
  | .num n, (k, some i) :: rest, v, _ => by
    rw [setDoc.eq_def]
    exact sameShapeDoc_refl (.num n)
  | .num n, (k, none) :: rest, v, _ => by
    rw [setDoc.eq_def]
    exact sameShapeDoc_refl (.num n)
  | .bool b, (k, some i) :: rest, v, _ => by
    rw [setDoc.eq_def]
    exact sameShapeDoc_refl (.bool b)
  | .bool b, (k, none) :: rest, v, _ => by
    rw [setDoc.eq_def]
    exact sameShapeDoc_refl (.bool b)
  | .null, (k, some i) :: rest, v, _ => by
    rw [setDoc.eq_def]
    exact sameShapeDoc_refl .null
  | .null, (k, none) :: rest, v, _ => by
    rw [setDoc.eq_def]
    exact sameShapeDoc_refl .null
  termination_by d _ _ _ => sizeOf d

theorem safe_setDListAt : ∀ (items : DList) (i : Nat) (segs : List Seg)
    (v : String), safeDListAt items i segs = true →
    sameShapeDList items (setDListAt items i segs v) = true
  | .nil, _, _, _, _ => by
    rw [setDListAt.eq_def]
    exact sameShapeDList_refl .nil
  | .cons x xs, 0, segs, v, h => by
    rw [setDListAt.eq_def]
    dsimp only
    rw [sameShapeDList_cons, Bool.and_eq_true]
    refine ⟨safe_setDoc x segs v ?_, sameShapeDList_refl xs⟩
    rw [safeDListAt.eq_def] at h
    exact h
  | .cons x xs, n + 1, segs, v, h => by
    rw [setDListAt.eq_def]
    dsimp only
    rw [sameShapeDList_cons, Bool.and_eq_true]
    refine ⟨sameShapeDoc_refl x, safe_setDListAt xs n segs v ?_⟩
    rw [safeDListAt.eq_def] at h
    exact h
  termination_by items _ _ _ _ => sizeOf items

theorem safe_setDListAll : ∀ (items : DList) (segs : List Seg) (v : String),
    safeDListAll items segs = true →
    sameShapeDList items (setDListAll items segs v) = true
  | .nil, _, _, _ => by
    rw [setDListAll.eq_def]
    exact sameShapeDList_refl .nil
  | .cons x xs, segs, v, h => by
    rw [safeDListAll.eq_def] at h
    dsimp only at h
    rw [Bool.and_eq_true] at h
    rw [setDListAll.eq_def]
    dsimp only
    rw [sameShapeDList_cons, Bool.and_eq_true]
    exact ⟨safe_setDoc x segs v h.1, safe_setDListAll xs segs v h.2⟩
  termination_by items _ _ _ => sizeOf items

theorem safe_setDListRec : ∀ (items : DList) (i : Nat) (segs : List Seg)
    (v : String), safeDListRec items i segs = true →
    sameShapeDList items (setDListRec items i segs v) = true
  | .nil, _, _, _, _ => by
    rw [setDListRec.eq_def]
    exact sameShapeDList_refl .nil
  | .cons x xs, 0, segs, v, h => by
    rw [setDListRec.eq_def]
    dsimp only
    rw [sameShapeDList_cons, Bool.and_eq_true]
    refine ⟨safe_setDoc x segs v ?_, sameShapeDList_refl xs⟩
    rw [safeDListRec.eq_def] at h
    exact h
  | .cons x xs, n + 1, segs, v, h => by
    rw [setDListRec.eq_def]
    dsimp only
    rw [sameShapeDList_cons, Bool.and_eq_true]
    refine ⟨sameShapeDoc_refl x, safe_setDListRec xs n segs v ?_⟩
    rw [safeDListRec.eq_def] at h
    exact h
  termination_by items _ _ _ _ => sizeOf items

theorem safe_setFields : ∀ (fs : Fields) (k : String) (idx : Option Nat)
    (rest : List Seg) (v : String), safeFields fs k idx rest = true →
    sameShapeFields fs (setFields fs k idx rest v) = true
  | .nil, _, _, _, _, _ => by
    rw [setFields.eq_def]
    exact sameShapeFields_refl .nil
  | .cons k2 next rest2, k, idx, segsRest, v, h => by
    by_cases hk : k2 = k
    · rw [safeFields_cons_eq k2 k next rest2 idx segsRest hk] at h
      rw [setFields_cons_eq k2 k next rest2 idx segsRest v hk]
      apply sameShapeFields_cons_self
      rcases segsRest with _ | ⟨⟨sk, sidx⟩, rest3⟩
      · cases next with
        | arr xs =>
          dsimp only at h ⊢
          by_cases hall : dlistAllStr xs
          · rw [if_pos hall]
            rw [sameShapeDoc_arr]
            exact allStr_overwrite_shape v xs hall
          · rw [if_neg hall] at h
            cases idx with
            | some i =>
              dsimp only at h ⊢
              rw [if_neg hall]
              by_cases hlen : i < xs.length
              · rw [if_pos hlen] at h ⊢
                rw [sameShapeDoc_arr]
                exact setElem_shape v xs i h
              · rw [if_neg hlen] at h
                exact absurd h (by simp)
            | none =>
              dsimp only at h
              exact absurd h (by simp)
        | str s =>
          dsimp only
          rw [sameShapeDoc_str]
        | obj fs2 => exact absurd (by dsimp only at h; exact h) (by simp)
        | num n => exact absurd (by dsimp only at h; exact h) (by simp)
        | bool b => exact absurd (by dsimp only at h; exact h) (by simp)
        | null => exact absurd (by dsimp only at h; exact h) (by simp)
      · cases idx with
        | some i =>
          cases next with
          | arr xs =>
            dsimp only at h ⊢
            by_cases hlen : i < xs.length
            · rw [if_pos hlen] at h ⊢
              rw [sameShapeDoc_arr]
              exact safe_setDListRec xs i ((sk, sidx) :: rest3) v h
            · rw [if_neg hlen]
              exact sameShapeDoc_refl (.arr xs)
          | obj fs2 => exact sameShapeDoc_refl (.obj fs2)
          | str s => exact sameShapeDoc_refl (.str s)
          | num n => exact sameShapeDoc_refl (.num n)
          | bool b => exact sameShapeDoc_refl (.bool b)
          | null => exact sameShapeDoc_refl .null
        | none =>
          cases next with
          | obj fs2 =>
            dsimp only at h ⊢
            exact safe_setDoc (.obj fs2) ((sk, sidx) :: rest3) v h
          | arr xs =>
            dsimp only at h ⊢
            exact safe_setDoc (.arr xs) ((sk, sidx) :: rest3) v h
          | str s =>
            dsimp only at h ⊢
            exact safe_setDoc (.str s) ((sk, sidx) :: rest3) v h
          | num n =>
            dsimp only at h ⊢
            exact safe_setDoc (.num n) ((sk, sidx) :: rest3) v h
          | bool b =>
            dsimp only at h ⊢
            exact safe_setDoc (.bool b) ((sk, sidx) :: rest3) v h
          | null =>
            dsimp only at h ⊢
            exact safe_setDoc .null ((sk, sidx) :: rest3) v h
    · rw [safeFields_cons_ne k2 k next rest2 idx segsRest hk] at h
      rw [setFields_cons_ne k2 k next rest2 idx segsRest v hk]
      exact sameShapeFields_cons_rest k2 next _ _
        (safe_setFields rest2 k idx segsRest v h)
  termination_by fs _ _ _ _ _ => sizeOf fs
end

/-! ### Claim C1 — structural preservation -/

/-- Claim C1, counterexample: the write for leaf `Patient.a` lands on a
list that holds a nested object next to the matched string, so the source's
`current[key] = new_value` branch replaces the whole Array (object
included) with one String — the output does not have the input's node kinds
and array lengths. -/
theorem c1_counterexample :
    deidentify_json cexStructBundle nerNone =
      (cexStructRedacted, [⟨"Patient.a", "Jon123", "NAME", 1, "regex"⟩])
    ∧ sameShapeDoc cexStructBundle cexStructRedacted = false := by
  refine ⟨by decide, by decide⟩

/-- Claim C1, amended: a rewrite preserves key sets, array lengths and node
kinds at every position whenever each point where the final segment's
replacement lands is a String leaf or an all-strings array (or an in-range
indexed String element) — the `safeDoc` side condition; without it the
final-segment branch can replace a Number, Object or heterogeneous Array
wholesale with a String, as the counterexample shows. -/
theorem c1_setter_shape_preservation (obj : Doc) (path v : String)
    (h : safeDoc obj ((pySplitDot path).map parse_segment) = true) :
    sameShapeDoc obj (set_value_at_path obj path v) = true := by
  unfold set_value_at_path
  split
  · exact sameShapeDoc_refl obj
  · exact safe_setDoc obj _ v h

/-- Claim C1, witness: a safe write on a string leaf. -/
theorem c1_witness :
    sameShapeDoc (Doc.obj (.cons "a" (.str "x") .nil))
      (set_value_at_path (Doc.obj (.cons "a" (.str "x") .nil)) "a" "y") =
      true :=
  c1_setter_shape_preservation (Doc.obj (.cons "a" (.str "x") .nil)) "a" "y"
    (by decide)

/-! ### Claim C8 — silent drop of failed path resolutions -/

/-- Claim C8, counterexample: an explicit out-of-range index at the *final*
segment over a list that is not all-strings does not drop the write — the
`else` of the last-segment branch replaces the whole list with the new
string. -/
theorem c8_counterexample :
    set_value_at_path
        (Doc.obj (.ofList [("a",
          Doc.arr (.ofList [Doc.obj (.ofList [("x", .num 1)])]))]))
        "a[5]" "v" = Doc.obj (.ofList [("a", .str "v")])
    ∧ Doc.obj (.ofList [("a", .str "v")]) ≠
        Doc.obj (.ofList [("a",
          Doc.arr (.ofList [Doc.obj (.ofList [("x", .num 1)])]))]) := by
  refine ⟨by decide, by decide⟩

/-- A missing key leaves the field list unchanged. -/
theorem setFields_missing (k : String) (idx : Option Nat) (segs : List Seg)
    (v : String) : ∀ fs : Fields, Fields.lookup k fs = none →
      setFields fs k idx segs v = fs
  | .nil, _ => by rw [setFields.eq_def]
  | .cons k2 next rest2, h => by
    rw [Fields.lookup.eq_def] at h
    dsimp only at h
    by_cases hk : k2 = k
    · rw [if_pos hk] at h
      exact absurd h (by simp)
    · rw [if_neg hk] at h
      rw [setFields_cons_ne k2 k next rest2 idx segs v hk,
        setFields_missing k idx segs v rest2 h]

/-- An out-of-range index at a list level leaves the list unchanged. -/
theorem setDListAt_oob (segs : List Seg) (v : String) :
    ∀ (items : DList) (i : Nat), DList.length items ≤ i →
      setDListAt items i segs v = items
  | .nil, _, _ => by rw [setDListAt.eq_def]
  | .cons x xs, i, h => by
    rw [DList.length.eq_def] at h
    dsimp only at h
    cases i with
    | zero => omega
    | succ n =>
      rw [setDListAt.eq_def]
      dsimp only
      rw [setDListAt_oob segs v xs n (by omega)]

/-- An out-of-range explicit index below a present key, with more segments
to go, leaves the field list unchanged. -/
theorem setFields_desc_oob (k : String) (i : Nat) (xs : DList) (seg2 : Seg)
    (rest3 : List Seg) (v : String) :
    ∀ fs : Fields, Fields.lookup k fs = some (.arr xs) →
      DList.length xs ≤ i →
      setFields fs k (some i) (seg2 :: rest3) v = fs
  | .nil, h, _ => by rw [setFields.eq_def]
  | .cons k2 next rest2, h, hlen => by
    rw [Fields.lookup.eq_def] at h
    dsimp only at h
    by_cases hk : k2 = k
    · rw [if_pos hk] at h
      have hnext : next = .arr xs := Option.some.inj h
      subst hnext
      rw [setFields_cons_eq k2 k (.arr xs) rest2 (some i) (seg2 :: rest3) v hk]
      dsimp only
      rw [if_neg (show ¬ i < DList.length xs by omega)]
    · rw [if_neg hk] at h
      rw [setFields_cons_ne k2 k next rest2 (some i) (seg2 :: rest3) v hk,
        setFields_desc_oob k i xs seg2 rest3 v rest2 h hlen]

/-- Claim C8, amended: traversal failures are silent and non-fatal — a
missing key at a mapping node drops the write for that branch, and an
out-of-range explicit index drops it both at a list level and below a
present key when more segments remain.  (At the *final* segment, an
out-of-range explicit index over a non-all-strings list does not drop the
write: the whole value is replaced, as the counterexample shows.) -/
theorem c8_traversal_failures_drop_write :
    (∀ (fs : Fields) (k : String) (idx : Option Nat) (rest : List Seg)
      (v : String), Fields.lookup k fs = none →
      setDoc (.obj fs) ((k, idx) :: rest) v = .obj fs)
    ∧ (∀ (items : DList) (k : String) (i : Nat) (rest : List Seg)
      (v : String), DList.length items ≤ i →
      setDoc (.arr items) ((k, some i) :: rest) v = .arr items)
    ∧ (∀ (fs : Fields) (k : String) (i : Nat) (xs : DList) (seg2 : Seg)
      (rest3 : List Seg) (v : String),
      Fields.lookup k fs = some (.arr xs) → DList.length xs ≤ i →
      setDoc (.obj fs) ((k, some i) :: seg2 :: rest3) v = .obj fs) := by
  refine ⟨?_, ?_, ?_⟩
  · intro fs k idx rest v h
    cases idx with
    | some i =>
      rw [setDoc.eq_def]
      dsimp only
      rw [setFields_missing k (some i) rest v fs h]
    | none =>
      rw [setDoc.eq_def]
      dsimp only
      rw [setFields_missing k none rest v fs h]
  · intro items k i rest v h
    rw [setDoc.eq_def]
    dsimp only
    rw [setDListAt_oob (((k, some i)) :: rest) v items i h]
  · intro fs k i xs seg2 rest3 v h hlen
    rw [setDoc.eq_def]
    dsimp only
    rw [setFields_desc_oob k i xs seg2 rest3 v fs h hlen]

/-- Claim C8, witness: the three drop situations at concrete inputs. -/
theorem c8_witness :
    setDoc (Doc.obj (.cons "a" (.str "x") .nil)) [("zz", none)] "v" =
      Doc.obj (.cons "a" (.str "x") .nil)
    ∧ setDoc (Doc.arr (.cons (.str "x") .nil)) [("k", some 7)] "v" =
      Doc.arr (.cons (.str "x") .nil)
    ∧ setDoc (Doc.obj (.cons "a" (Doc.arr .nil) .nil))
        [("a", some 3), ("b", none)] "v" =
      Doc.obj (.cons "a" (Doc.arr .nil) .nil) :=
  ⟨c8_traversal_failures_drop_write.1 (.cons "a" (.str "x") .nil) "zz" none
      [] "v" (by decide),
   c8_traversal_failures_drop_write.2.1 (.cons (.str "x") .nil) "k" 7 [] "v"
      (by decide),
   c8_traversal_failures_drop_write.2.2 (.cons "a" (Doc.arr .nil) .nil) "a"
      3 .nil ("b", none) [] "v" (by decide) (by decide)⟩

/-! ### Claim C6 — idempotence on bracketed-label leaves -/

/-- Claim C6, counterexample: the first run turns `Patient.name = "12345"`
into the bracketed token `"[LOCATION]"` (keypath hint NAME, then the
five-digit post-fix); re-running the pipeline rewrites that bracketed leaf
to `"[NAME]"` — the keypath hint fires on the already-redacted value — so a
second run changes a bracketed-label leaf. -/
theorem c6_counterexample :
    (deidentify_json cexIdemBundle nerNone).1 = cexIdemOnce
    ∧ (deidentify_json cexIdemOnce nerNone).1 = cexIdemTwice
    ∧ docGet (docGet ((bundleEntries cexIdemOnce).getD 0 .null) "resource"
        .null) "name" .null = .str "[LOCATION]"
    ∧ docGet (docGet ((bundleEntries cexIdemTwice).getD 0 .null) "resource"
        .null) "name" .null = .str "[NAME]"
    ∧ "[LOCATION]" ∈ BRACKET_TOKENS := by
  refine ⟨by decide, by decide, by decide, by decide, by decide⟩

/-- `"["` occurs in every bracketed token. -/
theorem containsSub_bracket (h : String) :
    containsSub "[" ("[" ++ h ++ "]") = true := by
  have hd : ("[" ++ h ++ "]").data = '[' :: (h.data ++ [']']) := by
    simp [String.data_append]
  unfold containsSub
  rw [hd]
  unfold subIn
  simp [List.isPrefixOf]

/-- Claim C6, amended: with no qualifying model span, re-processing a
bracketed label token yields the keypath hint's own token when the path has
a hint (so the leaf changes whenever the hint's label differs from the
token), and yields the token unchanged when the path has no hint — the
bracketed tokens match no library pattern and no post-fix. -/
theorem c6_bracketed_idempotence (kp t : String) (ner : Ner)
    (ht : t ∈ BRACKET_TOKENS)
    (hm : ∀ p ∈ merge_entities (ner t), ¬ CONF_THRESHOLD ≤ p.score) :
    (deidentify_line kp t ner).1 =
      match keypathHint (pyLower kp) with
      | some h => "[" ++ h ++ "]"
      | none => t := by
  have hne : pyStrip t ≠ "" := by fin_cases ht <;> decide
  cases hh : keypathHint (pyLower kp) with
  | none =>
    have hst2 : afterStep2 kp t ner = initState t := by
      unfold afterStep2
      rw [modelFold_skip _ _ hm]
      unfold keypathStage
      rw [hh]
      rfl
    have hreg : regexStage t (initState t) = initState t := by
      fin_cases ht <;> decide
    have hst3 : afterStep3 kp t ner = initState t := by
      rw [afterStep3_def, hst2, if_pos (show regexGuard (initState t) = true
        from rfl)]
      exact hreg
    have hfix1 : contextualFixes t (initState t) = (t, none) := by
      fin_cases ht <;> decide
    rw [deidentify_line_eq kp t ner hne, hst3, hfix1]
  | some h =>
    have hst2 : afterStep2 kp t ner =
        ⟨"[" ++ h ++ "]", true, some h, some "keypath", 0⟩ := by
      unfold afterStep2
      rw [modelFold_skip _ _ hm]
      unfold keypathStage
      rw [hh]
      rfl
    have hguard : regexGuard
        (⟨"[" ++ h ++ "]", true, some h, some "keypath", 0⟩ : LineState) =
        false := by
      simp [regexGuard, containsSub_bracket h]
    have hst3 : afterStep3 kp t ner =
        ⟨"[" ++ h ++ "]", true, some h, some "keypath", 0⟩ := by
      rw [afterStep3_def, hst2, hguard]
      simp
    have h1 : fullmatchRE RE_2UPPER (pyStrip t) = false := by
      fin_cases ht <;> decide
    have h2 : fullmatchRE RE_5DIGIT (pyStrip t) = false := by
      fin_cases ht <;> decide
    have h3 : fullmatchRE RE_CAPDIGITS (pyStrip t) = false := by
      fin_cases ht <;> decide
    have hfix2 : contextualFixes t
        (⟨"[" ++ h ++ "]", true, some h, some "keypath", 0⟩ : LineState) =
        ("[" ++ h ++ "]", some h) := by
      unfold contextualFixes
      simp [h1, h2, h3]
    rw [deidentify_line_eq kp t ner hne, hst3, hfix2]

/-- Claim C6, witness: at a hint-free keypath the token `"[NAME]"` is
unchanged by re-processing. -/
theorem c6_witness :
    (deidentify_line "zzz" "[NAME]" nerNone).1 = "[NAME]" := by
  have h := c6_bracketed_idempotence "zzz" "[NAME]" nerNone (by decide)
    (fun p hp => by simp [nerNone, merge_entities] at hp)
  rw [h]
  decide
